import Mathlib

/-!
Shallow embedding of the outbound-mail subsystem and the directory-sync
engine of the `it-service-desk` repository.

* `MailService` embeds `apps/api/app/services/mail_service.py` together with
  the `MailLog` ORM model (`apps/api/app/models/mail_log.py`).  The outbox
  store is a list of `MailLog` rows; the database's `UNIQUE` constraint on
  `event_key` is modelled by `insertMailLog`, which fails (as the SQL
  `INSERT` would, with an integrity error at commit) when a row with the
  same key already exists.  Timestamps are integers (seconds).
* `UserSync` embeds `apps/api/app/core/user_sync.py`: the raw-SQL source
  queries become filters over lists of source rows, the `UPDATE`/upsert
  statements become list transformations over the local `users` table, and
  the watermark (`SyncState.last_synced_at`) is an `Option Int`.
* `MailNotifications` embeds the recipient guard of
  `apps/api/app/services/mail_notifications.py`.
-/

namespace MailService

/-- `MAIL_MAX_ATTEMPTS` from `mail_service.py`. -/
def MAIL_MAX_ATTEMPTS : Nat := 3

/-- `MAIL_COOLDOWN_SECONDS` from `mail_service.py`. -/
def MAIL_COOLDOWN_SECONDS : Int := 60

/-- The `MailPayload` dataclass of `mail_service.py`. -/
structure MailPayload where
  event_key : String
  event_type : String
  subject : String
  body_html : String
  body_text : String
  recipient_email : String
  recipient_emp_no : Option String := none
  ticket_id : Option Int := none
deriving DecidableEq, Repr

/-- A row of the `mail_logs` table (`MailLog` model in `mail_log.py`).
`created_at` is the server-side insertion time. -/
structure MailLog where
  event_key : String
  event_type : String
  ticket_id : Option Int
  recipient_emp_no : Option String
  recipient_email : String
  subject : String
  body_text : Option String
  body_html : Option String
  status : String
  attempts : Nat
  last_attempt_at : Option Int
  next_attempt_at : Option Int
  error_message : Option String
  created_at : Int
deriving DecidableEq, Repr

/-- The outbox store: the current contents of the `mail_logs` table. -/
abbrev Store := List MailLog

/-- The database `UNIQUE` constraint on `mail_logs.event_key`: inserting a
row whose `event_key` already exists makes the transaction fail with an
integrity error; otherwise the row is appended. -/
def insertMailLog (store : Store) (r : MailLog) : Except String Store :=
  if store.any (fun x => x.event_key == r.event_key) then
    .error "unique violation: mail_logs.event_key"
  else
    .ok (store ++ [r])

/-- The store-level invariant backed by the `UNIQUE` index on
`mail_logs.event_key`: no two rows share an `event_key`. -/
def uniqueKeys (store : Store) : Prop :=
  (store.map MailLog.event_key).Nodup

/-- `_validate_email` from `mail_service.py`: empty strings fail
immediately; otherwise the `email_validator` library (modelled by the
parameter `ve`, returning the normalized address or `none`) decides. -/
def validateEmail (ve : String → Option String) (addr : String) : Option String :=
  if addr = "" then none else ve addr

/-- `_cooldown_hit` from `mail_service.py`: is there a `sent` row for the
same `(recipient_email, event_type, ticket_id)` created within the last
`MAIL_COOLDOWN_SECONDS`? -/
def cooldownHit (store : Store) (p : MailPayload) (now : Int) : Bool :=
  store.any (fun r =>
    r.recipient_email == p.recipient_email &&
    r.event_type == p.event_type &&
    r.ticket_id == p.ticket_id &&
    r.status == "sent" &&
    decide (now - MAIL_COOLDOWN_SECONDS ≤ r.created_at))

/-- The `skipped` row written on email-validation failure
(`enqueue_mail`, malformed-address branch). -/
def skippedInvalidRow (p : MailPayload) (now : Int) : MailLog :=
  { event_key := p.event_key
    event_type := p.event_type
    ticket_id := p.ticket_id
    recipient_emp_no := p.recipient_emp_no
    recipient_email := p.recipient_email
    subject := p.subject
    body_text := some p.body_text
    body_html := some p.body_html
    status := "skipped"
    attempts := 0
    last_attempt_at := some now
    next_attempt_at := none
    error_message := some "이메일 주소 형식 오류로 발송 생략"
    created_at := now }

/-- The `skipped` row written on a cooldown hit (`enqueue_mail`). -/
def skippedCooldownRow (p : MailPayload) (now : Int) : MailLog :=
  { event_key := p.event_key
    event_type := p.event_type
    ticket_id := p.ticket_id
    recipient_emp_no := p.recipient_emp_no
    recipient_email := p.recipient_email
    subject := p.subject
    body_text := some p.body_text
    body_html := some p.body_html
    status := "skipped"
    attempts := 0
    last_attempt_at := some now
    next_attempt_at := none
    error_message := some "쿨다운 기간 중 중복 발송 차단"
    created_at := now }

/-- The fresh `pending` row written by `enqueue_mail`. -/
def pendingRow (p : MailPayload) (now : Int) : MailLog :=
  { event_key := p.event_key
    event_type := p.event_type
    ticket_id := p.ticket_id
    recipient_emp_no := p.recipient_emp_no
    recipient_email := p.recipient_email
    subject := p.subject
    body_text := some p.body_text
    body_html := some p.body_html
    status := "pending"
    attempts := 0
    last_attempt_at := none
    next_attempt_at := some now
    error_message := none
    created_at := now }

/-- `enqueue_mail` from `mail_service.py`.  `smtpReady` is
`_is_smtp_ready()`; `ve` stands for the `email_validator` library; `now`
is `datetime.now(timezone.utc)`.  Branches, in source order: missing SMTP
config (no-op), malformed address (insert `skipped`), cooldown hit (insert
`skipped`), duplicate `event_key` (no-op), fresh `pending` insert. -/
def enqueue_mail (smtpReady : Bool) (ve : String → Option String)
    (store : Store) (p : MailPayload) (now : Int) : Except String Store :=
  if !smtpReady then .ok store
  else
    match validateEmail ve p.recipient_email with
    | none => insertMailLog store (skippedInvalidRow p now)
    | some normalized =>
      let p := { p with recipient_email := normalized }
      if cooldownHit store p now then
        insertMailLog store (skippedCooldownRow p now)
      else if store.any (fun r => r.event_key == p.event_key) then
        .ok store
      else
        insertMailLog store (pendingRow p now)

/-- `_next_backoff` from `mail_service.py`:
`steps = [60, 300, 900]; steps[min(attempts - 1, len(steps) - 1)]`. -/
def nextBackoff (attempts : Nat) : Int :=
  [(60 : Int), 300, 900].getD (min (attempts - 1) 2) 0

/-- The selection predicate of `_load_pending`: status in
`(pending, failed)`, `next_attempt_at <= now` (SQL: null compares false),
and `attempts < MAIL_MAX_ATTEMPTS`. -/
def isDue (now : Int) (r : MailLog) : Bool :=
  (r.status == "pending" || r.status == "failed") &&
  (match r.next_attempt_at with
   | some t => decide (t ≤ now)
   | none => false) &&
  decide (r.attempts < MAIL_MAX_ATTEMPTS)

/-- The per-row body of `_process_once`: `send` models
`_send_message` (`none` = delivered, `some e` = the exception text). -/
def processLog (send : MailLog → Option String) (now : Int) (r : MailLog) : MailLog :=
  match send r with
  | none =>
    { r with status := "sent", attempts := r.attempts + 1,
             last_attempt_at := some now, next_attempt_at := none,
             error_message := none }
  | some e =>
    { r with attempts := r.attempts + 1, status := "failed",
             last_attempt_at := some now,
             next_attempt_at := some (now + nextBackoff (r.attempts + 1)),
             error_message := some e }

/-- One pass over the table applying `processLog` to due rows, honouring
the `LIMIT` of `_load_pending` (`budget` rows at most). -/
def processRows (send : MailLog → Option String) (now : Int) :
    Store → Nat → Store
  | [], _ => []
  | r :: rest, budget =>
    if budget = 0 then r :: rest
    else if isDue now r then
      processLog send now r :: processRows send now rest (budget - 1)
    else
      r :: processRows send now rest budget

/-- `_process_once` from `mail_service.py`: nothing happens without SMTP
config; otherwise the due rows (up to the `LIMIT 20` of `_load_pending`)
are attempted and updated in place. -/
def process_once (smtpReady : Bool) (send : MailLog → Option String)
    (now : Int) (store : Store) : Store :=
  if !smtpReady then store else processRows send now store 20

end MailService

namespace UserSync

/-- A row of the local `users` table as the raw SQL of `user_sync.py`
sees it (columns named in the `INSERT`/`UPDATE` statements). -/
structure UserRow where
  emp_no : String
  kor_name : Option String
  eng_name : Option String
  title : Option String
  department : Option String
  password : Option String
  email : Option String
  role : String
  is_verified : Bool
deriving DecidableEq, Repr

/-- A joined source row as produced by `_source_query_password`:
`cu.user_id AS emp_no, cu.password, cu.update_dtime AS updated_at`, with
the `gp_master` columns used by the `WHERE` clause. -/
structure PwSourceRow where
  emp_no : String
  work_tp : String
  emp_tp : String
  password : Option String
  update_dtime : Option Int
deriving DecidableEq, Repr

/-- A joined source row as produced by `_source_query_profile` before its
`WHERE` clause: `gp_master` fields plus the left-joined title, department,
password and de-duplicated email, and the four `update_dtime` columns that
feed the `GREATEST(COALESCE(...))` watermark expression. -/
structure ProfileSourceRow where
  emp_no : String
  work_tp : String
  emp_tp : String
  kor_name : Option String
  eng_name : Option String
  title : Option String
  department : Option String
  password : Option String
  email : Option String
  gm_update : Option Int
  cu_update : Option Int
  cc_update : Option Int
  d_update : Option Int
deriving DecidableEq, Repr

/-- `TIMESTAMP '1970-01-01'` / `datetime(1970, 1, 1, tzinfo=timezone.utc)`. -/
def epoch : Int := 0

/-- `emp_no LIKE :emp_like` with `emp_like = f"{prefix}%"`: the employee
number starts with the configured prefix (matched character-wise). -/
def empLike (pfx empNo : String) : Bool :=
  pfx.data.isPrefixOf empNo.data

/-- The `WHERE` clause shared by both source queries on the `gp_master`
columns: `gm.emp_no LIKE :emp_like` (prefix match), `gm.work_tp IN
('1','3')`, `gm.emp_tp IN ('1','2')`. -/
def empFilter (pfx empNo workTp empTp : String) : Bool :=
  empLike pfx empNo &&
  (workTp == "1" || workTp == "3") &&
  (empTp == "1" || empTp == "2")

/-- `_source_query_password`: rows passing the employee filter with a
non-null password and `cu.update_dtime > :last_sync` (SQL: a null
`update_dtime` compares false). -/
def sourceQueryPassword (src : List PwSourceRow) (pfx : String)
    (lastSync : Int) : List PwSourceRow :=
  src.filter (fun r =>
    empFilter pfx r.emp_no r.work_tp r.emp_tp &&
    r.password.isSome &&
    (match r.update_dtime with
     | some t => decide (lastSync < t)
     | none => false))

/-- The `GREATEST(COALESCE(gm...), COALESCE(cu...), COALESCE(cc...),
COALESCE(d...))` expression of `_source_query_profile` (coalescing each
null `update_dtime` to the 1970 epoch). -/
def profileUpdatedAt (r : ProfileSourceRow) : Int :=
  max (max (r.gm_update.getD epoch) (r.cu_update.getD epoch))
      (max (r.cc_update.getD epoch) (r.d_update.getD epoch))

/-- `_source_query_profile`: the employee filter, `cu.password IS NOT
NULL`, and `GREATEST(...) > :last_sync`. -/
def sourceQueryProfile (src : List ProfileSourceRow) (pfx : String)
    (lastSync : Int) : List ProfileSourceRow :=
  src.filter (fun r =>
    r.password.isSome &&
    empFilter pfx r.emp_no r.work_tp r.emp_tp &&
    decide (lastSync < profileUpdatedAt r))

/-- The running `max_updated` update of both sync loops:
`if updated_at and (max_updated is None or updated_at > max_updated)`
(a datetime is always truthy, so only `None` fails the first test). -/
def foldMax (mx : Option Int) (t : Option Int) : Option Int :=
  match t with
  | none => mx
  | some v =>
    match mx with
    | none => some v
    | some m => if m < v then some v else mx

/-- The `UPDATE users SET password = :password WHERE emp_no = :emp_no`
statement run per password-sync row: matching rows get the new password,
everything else (and every other column) is untouched; no row is ever
inserted. -/
def applyPwRow (users : List UserRow) (r : PwSourceRow) : List UserRow :=
  users.map (fun u =>
    if u.emp_no == r.emp_no then { u with password := r.password } else u)

/-- Result of one `sync_password_once` run: the new watermark, the new
`users` table and the row count the function returns. -/
structure PwRunOut where
  state : Option Int
  users : List UserRow
  affected : Nat
deriving Repr

/-- `sync_password_once` from `user_sync.py`.  `enabled` is
`_load_config() is not None`; `state` is the stored
`SyncState.last_synced_at` for `users_password_sync` (`none` when the row
is absent or null, treated as the 1970 epoch); `now` is
`datetime.now(timezone.utc)`, used only by the `max_updated or now`
fallback.  When rows were processed the watermark becomes `max_updated or
now`; otherwise the state row is left alone. -/
def sync_password_once (enabled : Bool) (pfx : String)
    (src : List PwSourceRow) (state : Option Int) (users : List UserRow)
    (now : Int) : PwRunOut :=
  if !enabled then { state := state, users := users, affected := 0 }
  else
    let lastSync := state.getD epoch
    let rows := sourceQueryPassword src pfx lastSync
    let users' := rows.foldl applyPwRow users
    let maxU := rows.foldl (fun m r => foldMax m r.update_dtime) none
    let affected := rows.length
    { state := if affected ≠ 0 then some (maxU.getD now) else state
      users := users'
      affected := affected }

/-- The fresh local user inserted by the profile-sync upsert (`VALUES`
branch): source columns plus `role = 'requester'`, `is_verified = TRUE`. -/
def newProfileUser (r : ProfileSourceRow) : UserRow :=
  { emp_no := r.emp_no
    kor_name := r.kor_name
    eng_name := r.eng_name
    title := r.title
    department := r.department
    password := r.password
    email := r.email
    role := "requester"
    is_verified := true }

/-- The `ON CONFLICT (emp_no) DO UPDATE` branch of the profile-sync
upsert: only `kor_name`, `eng_name`, `title`, `department`, `email`
change; `password`, `role` and `is_verified` keep their local values. -/
def profileUpdateUser (u : UserRow) (r : ProfileSourceRow) : UserRow :=
  { u with kor_name := r.kor_name, eng_name := r.eng_name,
           title := r.title, department := r.department, email := r.email }

/-- The `INSERT ... ON CONFLICT (emp_no) DO UPDATE` statement run per
profile-sync row. -/
def upsertProfileRow (users : List UserRow) (r : ProfileSourceRow) :
    List UserRow :=
  if users.any (fun u => u.emp_no == r.emp_no) then
    users.map (fun u =>
      if u.emp_no == r.emp_no then profileUpdateUser u r else u)
  else
    users ++ [newProfileUser r]

/-- Result of one `sync_profile_once` run: watermark, users table, row
count, and the process-wide `_force_full_done` flag after the run. -/
structure ProfileRunOut where
  state : Option Int
  users : List UserRow
  affected : Nat
  forceFullDone : Bool
deriving Repr

/-- `sync_profile_once` from `user_sync.py`.  `forceFull` is
`settings.sync_force_full` and `forceFullDone` the module-global
`_force_full_done`; when the one-shot full resync fires, the watermark is
treated as the 1970 epoch for this run only, and the flag is set after the
commit. -/
def sync_profile_once (enabled : Bool) (forceFull forceFullDone : Bool)
    (pfx : String) (src : List ProfileSourceRow) (state : Option Int)
    (users : List UserRow) (now : Int) : ProfileRunOut :=
  if !enabled then
    { state := state, users := users, affected := 0,
      forceFullDone := forceFullDone }
  else
    let lastSync :=
      if forceFull && !forceFullDone then epoch else state.getD epoch
    let rows := sourceQueryProfile src pfx lastSync
    let users' := rows.foldl upsertProfileRow users
    let maxU := rows.foldl (fun m r => foldMax m (some (profileUpdatedAt r))) none
    let affected := rows.length
    { state := if affected ≠ 0 then some (maxU.getD now) else state
      users := users'
      affected := affected
      forceFullDone := forceFullDone || forceFull }

/-- Lookup of a local user by employee number. -/
def findUser (users : List UserRow) (e : String) : Option UserRow :=
  users.find? (fun u => u.emp_no == e)

/-- Every column of a `users` row except `password` — the frame of the
password-sync `UPDATE`. -/
def nonPwFields (u : UserRow) :
    String × Option String × Option String × Option String × Option String ×
    Option String × String × Bool :=
  (u.emp_no, u.kor_name, u.eng_name, u.title, u.department, u.email,
   u.role, u.is_verified)

end UserSync

namespace MailNotifications

/-- The `MailTarget` dataclass of `mail_notifications.py`. -/
structure MailTarget where
  emp_no : Option String
  email : Option String
deriving DecidableEq, Repr

/-- Python's `not recipient.email` on a `str | None` field: true for
`None` and for the empty string. -/
def emailMissing (e : Option String) : Bool :=
  match e with
  | none => true
  | some s => s.isEmpty

/-- `enqueue_ticket_mail` from `mail_notifications.py`: if the recipient
has no email the function returns before touching the store; otherwise it
builds a `MailPayload` (bodies come from `_wrap_template`, passed in here
as the already-rendered `bodyText`/`bodyHtml`) and hands it to
`enqueue_mail`. -/
def enqueue_ticket_mail (smtpReady : Bool) (ve : String → Option String)
    (store : MailService.Store) (eventKey eventType : String)
    (ticketId : Int) (recipient : MailTarget)
    (subject bodyText bodyHtml : String) (now : Int) :
    Except String MailService.Store :=
  if emailMissing recipient.email then .ok store
  else
    MailService.enqueue_mail smtpReady ve store
      { event_key := eventKey
        event_type := eventType
        ticket_id := some ticketId
        recipient_emp_no := recipient.emp_no
        recipient_email := recipient.email.getD ""
        subject := subject
        body_text := bodyText
        body_html := bodyHtml } now

/-- `enqueue_comment_mail` from `mail_notifications.py`: identical
recipient guard and delegation (the comment argument only influences the
rendered bodies, which are passed in already rendered). -/
def enqueue_comment_mail (smtpReady : Bool) (ve : String → Option String)
    (store : MailService.Store) (eventKey eventType : String)
    (ticketId : Int) (recipient : MailTarget)
    (subject bodyText bodyHtml : String) (now : Int) :
    Except String MailService.Store :=
  if emailMissing recipient.email then .ok store
  else
    MailService.enqueue_mail smtpReady ve store
      { event_key := eventKey
        event_type := eventType
        ticket_id := some ticketId
        recipient_emp_no := recipient.emp_no
        recipient_email := recipient.email.getD ""
        subject := subject
        body_text := bodyText
        body_html := bodyHtml } now

end MailNotifications

namespace Fixtures

/-- A concrete payload with a well-formed recipient address. -/
def samplePayload : MailService.MailPayload :=
  { event_key := "evt-1"
    event_type := "ticket_created"
    subject := "subject"
    body_html := "<p>body</p>"
    body_text := "body"
    recipient_email := "user@example.com"
    recipient_emp_no := some "E100"
    ticket_id := some 7 }

/-- A concrete payload with a malformed recipient address. -/
def badPayload : MailService.MailPayload :=
  { event_key := "evt-bad"
    event_type := "ticket_created"
    subject := "subject"
    body_html := "<p>body</p>"
    body_text := "body"
    recipient_email := "not-an-email"
    recipient_emp_no := some "E100"
    ticket_id := some 7 }

/-- A `sent` outbox row for `samplePayload`'s
`(recipient_email, event_type, ticket_id)` tuple, created at time 0. -/
def sentRow : MailService.MailLog :=
  { event_key := "evt-0"
    event_type := "ticket_created"
    ticket_id := some 7
    recipient_emp_no := some "E100"
    recipient_email := "user@example.com"
    subject := "subject"
    body_text := some "body"
    body_html := some "<p>body</p>"
    status := "sent"
    attempts := 1
    last_attempt_at := some 0
    next_attempt_at := none
    error_message := none
    created_at := 0 }

/-- An email-validator stand-in that rejects every address. -/
def veNone : String → Option String := fun _ => none

/-- An email-validator stand-in that accepts every address unchanged. -/
def veId : String → Option String := fun s => some s

/-- An SMTP stand-in whose delivery always fails. -/
def failSend : MailService.MailLog → Option String := fun _ => some "boom"

/-- An SMTP stand-in whose delivery always succeeds. -/
def okSend : MailService.MailLog → Option String := fun _ => none

/-- A concrete source row for the password sync. -/
def pwRow : UserSync.PwSourceRow :=
  { emp_no := "E100", work_tp := "1", emp_tp := "1",
    password := some "hash2", update_dtime := some 50 }

/-- A concrete source row for the profile sync. -/
def profRow : UserSync.ProfileSourceRow :=
  { emp_no := "E100", work_tp := "1", emp_tp := "1",
    kor_name := some "korname", eng_name := some "engname",
    title := some "title", department := some "dept",
    password := some "hash", email := some "user@example.com",
    gm_update := some 50, cu_update := none, cc_update := none,
    d_update := none }

/-- A concrete local user with employee number `E100`. -/
def localUser : UserSync.UserRow :=
  { emp_no := "E100", kor_name := some "old", eng_name := none,
    title := none, department := none, password := some "hash1",
    email := none, role := "admin", is_verified := false }

end Fixtures

/-! ## Lemmas about the dispatch worker -/

namespace MailService

/-- Closed form of the `_next_backoff` schedule. -/
theorem nextBackoff_eq (n : Nat) :
    nextBackoff n = if n ≤ 1 then 60 else if n = 2 then 300 else 900 := by
  unfold nextBackoff
  rcases n with _ | _ | _ | n
  · rfl
  · rfl
  · rfl
  · have h : min (n + 3 - 1) 2 = 2 := by omega
    rw [h]
    rfl

/-- Both branches of `processLog` increment `attempts` by one. -/
theorem processLog_attempts (send : MailLog → Option String) (now : Int)
    (r : MailLog) : (processLog send now r).attempts = r.attempts + 1 := by
  unfold processLog
  cases send r <;> rfl

/-- A due row has `attempts < MAIL_MAX_ATTEMPTS`. -/
theorem isDue_attempts_lt {now : Int} {r : MailLog}
    (h : isDue now r = true) : r.attempts < MAIL_MAX_ATTEMPTS := by
  simp only [isDue, Bool.and_eq_true, decide_eq_true_eq] at h
  exact h.2

/-- Rows at the attempt cap are never selected by `_load_pending`. -/
theorem isDue_of_max_attempts {now : Int} {r : MailLog}
    (h : MAIL_MAX_ATTEMPTS ≤ r.attempts) : isDue now r = false := by
  cases hb : isDue now r
  · rfl
  · exact absurd (isDue_attempts_lt hb) (by omega)

/-- `processRows` relates every output row to its input row: it is either
untouched, or it was due and got processed. -/
theorem processRows_forall₂ (send : MailLog → Option String) (now : Int) :
    ∀ (store : Store) (budget : Nat),
      List.Forall₂
        (fun r r' => r' = r ∨ (isDue now r = true ∧ r' = processLog send now r))
        store (processRows send now store budget) := by
  intro store
  induction store with
  | nil => intro budget; exact List.Forall₂.nil
  | cons r rest ih =>
    intro budget
    unfold processRows
    by_cases hb : budget = 0
    · simp only [hb, if_pos rfl]
      exact List.forall₂_same.mpr (fun x _ => Or.inl rfl)
    · rw [if_neg hb]
      by_cases hd : isDue now r
      · rw [if_pos hd]
        exact List.Forall₂.cons (Or.inr ⟨hd, rfl⟩) (ih _)
      · rw [if_neg hd]
        exact List.Forall₂.cons (Or.inl rfl) (ih _)

/-- The same relation for a full `_process_once` cycle. -/
theorem process_once_forall₂ (smtpReady : Bool)
    (send : MailLog → Option String) (now : Int) (store : Store) :
    List.Forall₂
      (fun r r' => r' = r ∨ (isDue now r = true ∧ r' = processLog send now r))
      store (process_once smtpReady send now store) := by
  unfold process_once
  by_cases hs : !smtpReady
  · rw [if_pos hs]
    exact List.forall₂_same.mpr (fun x _ => Or.inl rfl)
  · rw [if_neg hs]
    exact processRows_forall₂ send now store 20

/-- Each element on the right of a `Forall₂` has a related element on the
left. -/
theorem mem_of_forall₂ {α β : Type} {R : α → β → Prop} :
    ∀ {l : List α} {l' : List β}, List.Forall₂ R l l' →
      ∀ {b : β}, b ∈ l' → ∃ a ∈ l, R a b := by
  intro l l' h
  induction h with
  | nil => intro b hb; cases hb
  | cons hR hTail ih =>
    intro b hb
    rcases List.mem_cons.mp hb with rfl | hb'
    · exact ⟨_, List.mem_cons_self _ _, hR⟩
    · rcases ih hb' with ⟨a, ha, hab⟩
      exact ⟨a, List.mem_cons_of_mem _ ha, hab⟩

end MailService

namespace MailService

/-- C5: a delivery failure in a dispatch cycle increments `attempts`, sets
`status` to `failed`, stamps `last_attempt_at = now`, records the error,
and schedules `next_attempt_at = now + backoff(attempts)`, where the
backoff schedule is 60s for attempt 1, 300s for attempt 2, 900s for every
attempt from 3 on (capped), and is non-decreasing in the attempt number. -/
theorem C5_failure_backoff :
    (∀ (send : MailLog → Option String) (now : Int) (r : MailLog) (e : String),
      send r = some e →
      processLog send now r =
        { r with attempts := r.attempts + 1, status := "failed",
                 last_attempt_at := some now,
                 next_attempt_at := some (now + nextBackoff (r.attempts + 1)),
                 error_message := some e }) ∧
    nextBackoff 1 = 60 ∧ nextBackoff 2 = 300 ∧
    (∀ k, 3 ≤ k → nextBackoff k = 900) ∧
    (∀ j k, 1 ≤ j → j ≤ k → nextBackoff j ≤ nextBackoff k) := by
  refine ⟨?_, rfl, rfl, ?_, ?_⟩
  · intro send now r e h
    simp [processLog, h]
  · intro k hk
    rw [nextBackoff_eq]
    split_ifs <;> omega
  · intro j k h1 hjk
    rw [nextBackoff_eq, nextBackoff_eq]
    split_ifs <;> omega

/-- Witness for C5 at a concrete failing record. -/
theorem C5_failure_backoff_witness :
    processLog Fixtures.failSend 10 (pendingRow Fixtures.samplePayload 0) =
      { pendingRow Fixtures.samplePayload 0 with
          attempts := 1, status := "failed", last_attempt_at := some 10,
          next_attempt_at := some (10 + nextBackoff 1),
          error_message := some "boom" } ∧
    nextBackoff 3 = 900 ∧ nextBackoff 1 ≤ nextBackoff 2 :=
  ⟨C5_failure_backoff.1 Fixtures.failSend 10 (pendingRow Fixtures.samplePayload 0) "boom" rfl,
   C5_failure_backoff.2.2.2.1 3 (by decide),
   C5_failure_backoff.2.2.2.2 1 2 (by decide) (by decide)⟩

/-- C4 as frozen is false: after three consecutive delivery failures a
record is terminal (`failed` with `attempts == MAIL_MAX_ATTEMPTS`) yet its
`next_attempt_at` is not null — the failure branch of `_process_once`
schedules `now + backoff` even on the final attempt. -/
theorem C4_counterexample :
    (process_once true Fixtures.failSend 360
      (process_once true Fixtures.failSend 60
        (process_once true Fixtures.failSend 0
          [pendingRow Fixtures.samplePayload 0]))).map MailLog.status
      = ["failed"] ∧
    (process_once true Fixtures.failSend 360
      (process_once true Fixtures.failSend 60
        (process_once true Fixtures.failSend 0
          [pendingRow Fixtures.samplePayload 0]))).map MailLog.attempts
      = [MAIL_MAX_ATTEMPTS] ∧
    (process_once true Fixtures.failSend 360
      (process_once true Fixtures.failSend 60
        (process_once true Fixtures.failSend 0
          [pendingRow Fixtures.samplePayload 0]))).map MailLog.next_attempt_at
      = [some 1260] :=
  ⟨rfl, rfl, rfl⟩

/-- C4 (amended): `next_attempt_at` is null for the `sent` and `skipped`
terminal states, while a dead record (`failed` with
`attempts == MAIL_MAX_ATTEMPTS`) keeps its last scheduled
`next_attempt_at`; it is excluded from every later polling cycle by the
`attempts < MAIL_MAX_ATTEMPTS` half of the selection predicate. -/
theorem C4_terminal_next_attempt :
    (∀ (send : MailLog → Option String) (now : Int) (r : MailLog),
      send r = none → (processLog send now r).next_attempt_at = none) ∧
    (∀ (p : MailPayload) (now : Int),
      (skippedInvalidRow p now).next_attempt_at = none) ∧
    (∀ (p : MailPayload) (now : Int),
      (skippedCooldownRow p now).next_attempt_at = none) ∧
    (∀ (now : Int) (r : MailLog),
      r.status = "failed" → r.attempts = MAIL_MAX_ATTEMPTS →
      isDue now r = false) := by
  refine ⟨?_, fun _ _ => rfl, fun _ _ => rfl, ?_⟩
  · intro send now r h
    simp [processLog, h]
  · intro now r _ h2
    exact isDue_of_max_attempts (by omega)

/-- Witness for C4 (amended) at concrete records. -/
theorem C4_terminal_next_attempt_witness :
    (processLog Fixtures.okSend 10 (pendingRow Fixtures.samplePayload 0)).next_attempt_at = none ∧
    (skippedInvalidRow Fixtures.badPayload 0).next_attempt_at = none ∧
    isDue 99999 { Fixtures.sentRow with
                  status := "failed", attempts := 3,
                  next_attempt_at := some 1260 } = false :=
  ⟨C4_terminal_next_attempt.1 Fixtures.okSend 10 (pendingRow Fixtures.samplePayload 0) rfl,
   C4_terminal_next_attempt.2.1 Fixtures.badPayload 0,
   C4_terminal_next_attempt.2.2.2 99999 _ rfl rfl⟩

/-- C3: `attempts` never exceeds `MAIL_MAX_ATTEMPTS` (a dispatch cycle
preserves the bound because only rows with `attempts < MAIL_MAX_ATTEMPTS`
are selected); a record failing its `MAIL_MAX_ATTEMPTS`-th delivery ends
`failed` with `attempts = MAIL_MAX_ATTEMPTS`; such a record is never again
selected (`isDue` is false at the cap) and later cycles leave it
untouched. -/
theorem C3_retry_bound :
    (∀ (smtpReady : Bool) (send : MailLog → Option String) (now : Int)
        (store : Store),
      (∀ r ∈ store, r.attempts ≤ MAIL_MAX_ATTEMPTS) →
      ∀ r' ∈ process_once smtpReady send now store,
        r'.attempts ≤ MAIL_MAX_ATTEMPTS) ∧
    (∀ (send : MailLog → Option String) (now : Int) (r : MailLog) (e : String),
      send r = some e → r.attempts + 1 = MAIL_MAX_ATTEMPTS →
      (processLog send now r).status = "failed" ∧
      (processLog send now r).attempts = MAIL_MAX_ATTEMPTS) ∧
    (∀ (now : Int) (r : MailLog),
      MAIL_MAX_ATTEMPTS ≤ r.attempts → isDue now r = false) ∧
    (∀ (smtpReady : Bool) (send : MailLog → Option String) (now : Int)
        (store : Store),
      List.Forall₂ (fun r r' => isDue now r = false → r' = r)
        store (process_once smtpReady send now store)) := by
  refine ⟨?_, ?_, ?_, ?_⟩
  · intro smtpReady send now store hall r' hr'
    rcases mem_of_forall₂ (process_once_forall₂ smtpReady send now store) hr'
      with ⟨a, ha, hrel⟩
    rcases hrel with rfl | ⟨hdue, rfl⟩
    · exact hall _ ha
    · have := isDue_attempts_lt hdue
      rw [processLog_attempts]
      omega
  · intro send now r e h hcap
    constructor
    · simp [processLog, h]
    · rw [processLog_attempts]; exact hcap
  · intro now r h
    exact isDue_of_max_attempts h
  · intro smtpReady send now store
    exact (process_once_forall₂ smtpReady send now store).imp
      (by
        intro a b hrel hfalse
        rcases hrel with rfl | ⟨hdue, _⟩
        · rfl
        · rw [hdue] at hfalse; cases hfalse)

/-- Witness for C3 at a concrete one-row store. -/
theorem C3_retry_bound_witness :
    (∀ r' ∈ process_once true Fixtures.failSend 0
        [pendingRow Fixtures.samplePayload 0],
      r'.attempts ≤ MAIL_MAX_ATTEMPTS) ∧
    (processLog Fixtures.failSend 360
      { Fixtures.sentRow with
        status := "failed", attempts := 2,
        next_attempt_at := some 360 }).status = "failed" ∧
    isDue 99999 { Fixtures.sentRow with status := "failed", attempts := 3 } = false :=
  ⟨C3_retry_bound.1 true Fixtures.failSend 0 [pendingRow Fixtures.samplePayload 0]
      (by decide),
   (C3_retry_bound.2.1 Fixtures.failSend 360
      { Fixtures.sentRow with
        status := "failed", attempts := 2,
        next_attempt_at := some 360 } "boom" rfl (by decide)).1,
   C3_retry_bound.2.2.1 99999 _ (by decide)⟩

end MailService

namespace MailService

/-- A successful insert preserves the event-key uniqueness invariant. -/
theorem insertMailLog_uniqueKeys {store : Store} {r : MailLog}
    {store' : Store} (h : uniqueKeys store)
    (hok : insertMailLog store r = .ok store') : uniqueKeys store' := by
  unfold insertMailLog at hok
  by_cases hdup : store.any (fun x => x.event_key == r.event_key)
  · rw [if_pos hdup] at hok
    cases hok
  · rw [if_neg hdup] at hok
    injection hok with hh
    subst hh
    unfold uniqueKeys at h ⊢
    rw [List.map_append, List.nodup_append]
    refine ⟨h, List.nodup_singleton _, ?_⟩
    intro k hk hk'
    rcases List.mem_map.mp hk with ⟨x, hx, rfl⟩
    have hfalse : store.any (fun y => y.event_key == r.event_key) = false :=
      Bool.eq_false_iff.mpr hdup
    have hne := List.any_eq_false.mp hfalse x hx
    simp only [beq_iff_eq] at hne
    exact hne (List.mem_singleton.mp hk')

/-- `enqueue_mail` preserves the event-key uniqueness invariant whenever
it commits. -/
theorem enqueue_mail_uniqueKeys {smtpReady : Bool}
    {ve : String → Option String} {store : Store} {p : MailPayload}
    {now : Int} {store' : Store} (h : uniqueKeys store)
    (hok : enqueue_mail smtpReady ve store p now = .ok store') :
    uniqueKeys store' := by
  simp only [enqueue_mail] at hok
  split at hok
  · cases hok; exact h
  · split at hok
    · exact insertMailLog_uniqueKeys h hok
    · split at hok
      · exact insertMailLog_uniqueKeys h hok
      · split at hok
        · cases hok; exact h
        · exact insertMailLog_uniqueKeys h hok

end MailService

namespace MailService

/-- C1 as frozen is false: a second `enqueue_mail` call with the same
`event_key` does not always return cleanly.  On the malformed-email path
the function inserts a `skipped` row without consulting the idempotency
check, so the second call trips the `UNIQUE` constraint and raises an
integrity error instead of returning. -/
theorem C1_counterexample :
    enqueue_mail true Fixtures.veNone [] Fixtures.badPayload 0 =
      .ok [skippedInvalidRow Fixtures.badPayload 0] ∧
    enqueue_mail true Fixtures.veNone [skippedInvalidRow Fixtures.badPayload 0]
      Fixtures.badPayload 5 =
      .error "unique violation: mail_logs.event_key" :=
  ⟨rfl, rfl⟩

/-- C1 (amended): the store never holds two records with one `event_key`
— every committing `enqueue_mail` call preserves the uniqueness invariant
— and a second call that reaches the idempotency check (its address passes
validation and the cooldown does not fire) returns without creating a new
row when a record with its `event_key` already exists.  On the
malformed-email and cooldown paths a duplicate `event_key` instead makes
the insert fail with a uniqueness error, which also creates no new row. -/
theorem C1_unique_event_key :
    (∀ (smtpReady : Bool) (ve : String → Option String) (store : Store)
        (p : MailPayload) (now : Int) (store' : Store),
      uniqueKeys store →
      enqueue_mail smtpReady ve store p now = .ok store' →
      uniqueKeys store') ∧
    (∀ (ve : String → Option String) (store : Store) (p : MailPayload)
        (now : Int) (norm : String),
      validateEmail ve p.recipient_email = some norm →
      cooldownHit store { p with recipient_email := norm } now = false →
      store.any (fun r => r.event_key == p.event_key) = true →
      enqueue_mail true ve store p now = .ok store) := by
  constructor
  · intro smtpReady ve store p now store' h hok
    exact enqueue_mail_uniqueKeys h hok
  · intro ve store p now norm hv hcd hex
    simp [enqueue_mail, hv, hcd, hex]

/-- Witness for C1 (amended): a fresh enqueue commits a unique store, and
a duplicate key on the normal path is silently ignored. -/
theorem C1_unique_event_key_witness :
    uniqueKeys [pendingRow Fixtures.samplePayload 0] ∧
    enqueue_mail true Fixtures.veId
      [{ Fixtures.sentRow with event_key := "evt-1" }]
      Fixtures.samplePayload 99999 =
      .ok [{ Fixtures.sentRow with event_key := "evt-1" }] :=
  ⟨C1_unique_event_key.1 true Fixtures.veId [] Fixtures.samplePayload 0
      [pendingRow Fixtures.samplePayload 0] (by simp [uniqueKeys]) rfl,
   C1_unique_event_key.2 Fixtures.veId
      [{ Fixtures.sentRow with event_key := "evt-1" }]
      Fixtures.samplePayload 99999 "user@example.com" rfl (by decide) (by decide)⟩

/-- C6: with SMTP configured, a payload whose recipient address fails
validation never yields a `pending` record: `enqueue_mail` persists a
`skipped` record carrying a non-null `error_message` under the payload's
`event_key` (stated for an unconsumed `event_key`, which the claim's
"consuming" presupposes). -/
theorem C6_malformed_email_skipped :
    ∀ (ve : String → Option String) (store : Store) (p : MailPayload)
      (now : Int),
      validateEmail ve p.recipient_email = none →
      (∀ r ∈ store, r.event_key ≠ p.event_key) →
      enqueue_mail true ve store p now =
        .ok (store ++ [skippedInvalidRow p now]) ∧
      (skippedInvalidRow p now).status = "skipped" ∧
      (skippedInvalidRow p now).status ≠ "pending" ∧
      (skippedInvalidRow p now).error_message.isSome = true ∧
      (skippedInvalidRow p now).event_key = p.event_key := by
  intro ve store p now hv hfresh
  have hfalse : store.any (fun x => x.event_key == p.event_key) = false := by
    rw [List.any_eq_false]
    intro x hx
    simpa using hfresh x hx
  refine ⟨?_, rfl, by simp [skippedInvalidRow], rfl, rfl⟩
  simp [enqueue_mail, hv, insertMailLog, skippedInvalidRow, hfalse]

/-- Witness for C6 at a concrete malformed payload. -/
theorem C6_malformed_email_skipped_witness :
    enqueue_mail true Fixtures.veNone [Fixtures.sentRow] Fixtures.badPayload 3 =
      .ok ([Fixtures.sentRow] ++ [skippedInvalidRow Fixtures.badPayload 3]) ∧
    (skippedInvalidRow Fixtures.badPayload 3).status = "skipped" :=
  ⟨(C6_malformed_email_skipped Fixtures.veNone [Fixtures.sentRow]
      Fixtures.badPayload 3 rfl (by decide)).1,
   (C6_malformed_email_skipped Fixtures.veNone [Fixtures.sentRow]
      Fixtures.badPayload 3 rfl (by decide)).2.1⟩

/-- C7: with SMTP configured and a valid recipient, a payload whose
`(recipient_email, event_type, ticket_id)` tuple has a `sent` record
inside the 60-second cooldown window is persisted as `skipped`, not
`pending`, when its `event_key` is new; and the cooldown check runs before
the `event_key` idempotency check — when both would fire, the call takes
the cooldown branch and its insert hits the uniqueness error instead of
the idempotent silent return. -/
theorem C7_cooldown_before_idempotency :
    (∀ (ve : String → Option String) (store : Store) (p : MailPayload)
        (now : Int) (norm : String),
      validateEmail ve p.recipient_email = some norm →
      cooldownHit store { p with recipient_email := norm } now = true →
      (∀ r ∈ store, r.event_key ≠ p.event_key) →
      enqueue_mail true ve store p now =
        .ok (store ++ [skippedCooldownRow { p with recipient_email := norm } now]) ∧
      (skippedCooldownRow { p with recipient_email := norm } now).status
        = "skipped") ∧
    (∀ (ve : String → Option String) (store : Store) (p : MailPayload)
        (now : Int) (norm : String) (r : MailLog),
      validateEmail ve p.recipient_email = some norm →
      cooldownHit store { p with recipient_email := norm } now = true →
      r ∈ store → r.event_key = p.event_key →
      enqueue_mail true ve store p now =
        .error "unique violation: mail_logs.event_key") := by
  constructor
  · intro ve store p now norm hv hcd hfresh
    have hfalse : store.any (fun x => x.event_key == p.event_key) = false := by
      rw [List.any_eq_false]
      intro x hx
      simpa using hfresh x hx
    refine ⟨?_, rfl⟩
    simp [enqueue_mail, hv, hcd, insertMailLog, skippedCooldownRow, hfalse]
  · intro ve store p now norm r hv hcd hr hkey
    have hdup : store.any (fun x => x.event_key == p.event_key) = true := by
      rw [List.any_eq_true]
      exact ⟨r, hr, by simpa using hkey⟩
    simp [enqueue_mail, hv, hcd, insertMailLog, skippedCooldownRow, hdup]

/-- Witness for C7: a `sent` record 30 seconds old suppresses a re-notify
with a fresh key, and with a duplicate key the cooldown branch still runs
first and surfaces the uniqueness error. -/
theorem C7_cooldown_before_idempotency_witness :
    enqueue_mail true Fixtures.veId [Fixtures.sentRow] Fixtures.samplePayload 30 =
      .ok ([Fixtures.sentRow] ++
        [skippedCooldownRow
          { Fixtures.samplePayload with recipient_email := "user@example.com" } 30]) ∧
    enqueue_mail true Fixtures.veId
      [{ Fixtures.sentRow with event_key := "evt-1" }] Fixtures.samplePayload 30 =
      .error "unique violation: mail_logs.event_key" :=
  ⟨(C7_cooldown_before_idempotency.1 Fixtures.veId [Fixtures.sentRow]
      Fixtures.samplePayload 30 "user@example.com" rfl (by decide) (by decide)).1,
   C7_cooldown_before_idempotency.2 Fixtures.veId
      [{ Fixtures.sentRow with event_key := "evt-1" }] Fixtures.samplePayload 30
      "user@example.com" { Fixtures.sentRow with event_key := "evt-1" } rfl
      (by decide) (by decide) rfl⟩

end MailService

namespace MailNotifications

/-- C10: a notification call (ticket or comment) whose recipient email is
null or empty returns before `enqueue_mail` is ever reached: the outbox
store is unchanged — no `skipped` audit row, and the `event_key` stays
unconsumed. -/
theorem C10_missing_email_noop :
    ∀ (smtpReady : Bool) (ve : String → Option String)
      (store : MailService.Store) (ek et : String) (tid : Int)
      (recipient : MailTarget) (subj bt bh : String) (now : Int),
      emailMissing recipient.email = true →
      enqueue_ticket_mail smtpReady ve store ek et tid recipient subj bt bh now
        = .ok store ∧
      enqueue_comment_mail smtpReady ve store ek et tid recipient subj bt bh now
        = .ok store := by
  intro smtpReady ve store ek et tid recipient subj bt bh now h
  constructor
  · simp [enqueue_ticket_mail, h]
  · simp [enqueue_comment_mail, h]

/-- Witness for C10 at concrete `none` and `""` recipients. -/
theorem C10_missing_email_noop_witness :
    enqueue_ticket_mail true Fixtures.veId [Fixtures.sentRow] "evt-9"
      "ticket_created" 7 ⟨some "E100", none⟩ "s" "b" "<p>b</p>" 0 =
      .ok [Fixtures.sentRow] ∧
    enqueue_comment_mail true Fixtures.veId [Fixtures.sentRow] "evt-9"
      "comment_admin" 7 ⟨some "E100", some ""⟩ "s" "b" "<p>b</p>" 0 =
      .ok [Fixtures.sentRow] :=
  ⟨(C10_missing_email_noop true Fixtures.veId [Fixtures.sentRow] "evt-9"
      "ticket_created" 7 ⟨some "E100", none⟩ "s" "b" "<p>b</p>" 0 rfl).1,
   (C10_missing_email_noop true Fixtures.veId [Fixtures.sentRow] "evt-9"
      "comment_admin" 7 ⟨some "E100", some ""⟩ "s" "b" "<p>b</p>" 0 rfl).2⟩

end MailNotifications

/-! ## Lemmas about the directory-sync engine -/

namespace UserSync

/-- `foldMax` keeps any value already accumulated reachable from below. -/
theorem foldMax_left {mx t : Option Int} {v : Int} (h : mx = some v) :
    ∃ w, foldMax mx t = some w ∧ v ≤ w := by
  subst h
  cases t with
  | none => exact ⟨v, rfl, le_refl v⟩
  | some u =>
    by_cases hlt : v < u
    · exact ⟨u, by simp [foldMax, hlt], le_of_lt hlt⟩
    · exact ⟨v, by simp [foldMax, hlt], le_refl v⟩

/-- `foldMax` absorbs the incoming value from below. -/
theorem foldMax_right {mx t : Option Int} {v : Int} (h : t = some v) :
    ∃ w, foldMax mx t = some w ∧ v ≤ w := by
  subst h
  cases mx with
  | none => exact ⟨v, rfl, le_refl v⟩
  | some m =>
    by_cases hlt : m < v
    · exact ⟨v, by simp [foldMax, hlt], le_refl v⟩
    · exact ⟨m, by simp [foldMax, hlt], by omega⟩

/-- A value produced by `foldMax` comes from one of its arguments. -/
theorem foldMax_eq_some {mx t : Option Int} {w : Int}
    (h : foldMax mx t = some w) : mx = some w ∨ t = some w := by
  cases t with
  | none => exact Or.inl h
  | some u =>
    cases mx with
    | none => exact Or.inr h
    | some m =>
      simp only [foldMax] at h
      split_ifs at h
      · exact Or.inr h
      · exact Or.inl h

/-- The `max_updated` fold of the sync loops is a true maximum: it
dominates the seed and every row value, and any produced value comes from
the seed or from a row. -/
theorem foldlMax_spec {α : Type} (ts : α → Option Int) :
    ∀ (l : List α) (init : Option Int),
      (∀ v, init = some v →
        ∃ m, l.foldl (fun mx r => foldMax mx (ts r)) init = some m ∧ v ≤ m) ∧
      (∀ a ∈ l, ∀ v, ts a = some v →
        ∃ m, l.foldl (fun mx r => foldMax mx (ts r)) init = some m ∧ v ≤ m) ∧
      (∀ m, l.foldl (fun mx r => foldMax mx (ts r)) init = some m →
        init = some m ∨ ∃ a ∈ l, ts a = some m) := by
  intro l
  induction l with
  | nil =>
    intro init
    refine ⟨?_, ?_, ?_⟩
    · intro v hv; exact ⟨v, hv, le_refl v⟩
    · intro a ha; cases ha
    · intro m hm; exact Or.inl hm
  | cons hd tl ih =>
    intro init
    refine ⟨?_, ?_, ?_⟩
    · intro v hv
      rcases foldMax_left (t := ts hd) hv with ⟨w, hw, hvw⟩
      rcases (ih (foldMax init (ts hd))).1 w hw with ⟨m, hm, hwm⟩
      exact ⟨m, by simpa using hm, le_trans hvw hwm⟩
    · intro a ha v hv
      rcases List.mem_cons.mp ha with rfl | ha'
      · rcases @foldMax_right init (ts a) v hv with ⟨w, hw, hvw⟩
        rcases (ih (foldMax init (ts a))).1 w hw with ⟨m, hm, hwm⟩
        exact ⟨m, by simpa using hm, le_trans hvw hwm⟩
      · rcases (ih (foldMax init (ts hd))).2.1 a ha' v hv with ⟨m, hm, hvm⟩
        exact ⟨m, by simpa using hm, hvm⟩
    · intro m hm
      have hm' : tl.foldl (fun mx r => foldMax mx (ts r)) (foldMax init (ts hd))
          = some m := by simpa using hm
      rcases (ih (foldMax init (ts hd))).2.2 m hm' with h1 | ⟨a, ha, hfa⟩
      · rcases foldMax_eq_some h1 with h2 | h2
        · exact Or.inl h2
        · exact Or.inr ⟨hd, List.mem_cons_self _ _, h2⟩
      · exact Or.inr ⟨a, List.mem_cons_of_mem _ ha, hfa⟩

/-- Rows returned by the password source query carry a non-null
`update_dtime` strictly above the watermark. -/
theorem mem_sourceQueryPassword {src : List PwSourceRow} {pfx : String}
    {lastSync : Int} {r : PwSourceRow}
    (h : r ∈ sourceQueryPassword src pfx lastSync) :
    r ∈ src ∧ ∃ v, r.update_dtime = some v ∧ lastSync < v := by
  rw [sourceQueryPassword, List.mem_filter] at h
  obtain ⟨hm, hb⟩ := h
  refine ⟨hm, ?_⟩
  cases hu : r.update_dtime with
  | none => rw [hu] at hb; simp at hb
  | some v =>
    refine ⟨v, rfl, ?_⟩
    rw [hu] at hb
    simp only [Bool.and_eq_true, decide_eq_true_eq] at hb
    exact hb.2

/-- Rows returned by the profile source query have their `GREATEST`
timestamp strictly above the watermark. -/
theorem mem_sourceQueryProfile {src : List ProfileSourceRow} {pfx : String}
    {lastSync : Int} {r : ProfileSourceRow}
    (h : r ∈ sourceQueryProfile src pfx lastSync) :
    r ∈ src ∧ lastSync < profileUpdatedAt r := by
  rw [sourceQueryProfile, List.mem_filter] at h
  obtain ⟨hm, hb⟩ := h
  simp only [Bool.and_eq_true, decide_eq_true_eq] at hb
  exact ⟨hm, hb.2⟩

/-- The shared watermark-advancement pattern of both sync tasks: when
every fetched row's timestamp is strictly above `lastSync`, a non-empty
batch drives the stored watermark to the exact maximum row timestamp
(never to `now`), and an empty batch leaves it alone. -/
theorem watermarkSpec {α : Type} (ts : α → Option Int) (rows : List α)
    (state : Option Int) (now lastSync : Int)
    (hts : ∀ r ∈ rows, ∃ v, ts r = some v ∧ lastSync < v) :
    (rows.length ≠ 0 →
      ∃ m, (if rows.length ≠ 0 then
              some ((rows.foldl (fun mx r => foldMax mx (ts r)) none).getD now)
            else state) = some m ∧
        lastSync < m ∧ (∃ r ∈ rows, ts r = some m) ∧
        (∀ r ∈ rows, ∀ v, ts r = some v → v ≤ m)) ∧
    (rows.length = 0 →
      (if rows.length ≠ 0 then
         some ((rows.foldl (fun mx r => foldMax mx (ts r)) none).getD now)
       else state) = state) := by
  constructor
  · intro hne
    rw [if_pos hne]
    obtain ⟨r0, hr0⟩ : ∃ r, r ∈ rows := by
      cases rows with
      | nil => simp at hne
      | cons a l => exact ⟨a, List.mem_cons_self _ _⟩
    rcases hts r0 hr0 with ⟨v0, hv0, _⟩
    rcases (foldlMax_spec ts rows none).2.1 r0 hr0 v0 hv0 with ⟨m, hmfold, _⟩
    rw [hmfold]
    refine ⟨m, rfl, ?_, ?_, ?_⟩
    · rcases (foldlMax_spec ts rows none).2.2 m hmfold with hinit | ⟨a, ha, hfa⟩
      · cases hinit
      · rcases hts a ha with ⟨v, hv, hlt⟩
        rw [hv] at hfa
        injection hfa with hh
        omega
    · rcases (foldlMax_spec ts rows none).2.2 m hmfold with hinit | h
      · cases hinit
      · exact h
    · intro r hr v hv
      rcases (foldlMax_spec ts rows none).2.1 r hr v hv with ⟨m', hm', hvm'⟩
      rw [hmfold] at hm'
      injection hm' with hh
      omega
  · intro hz
    rw [if_neg (by omega)]

end UserSync

namespace UserSync

/-- Unfolding of an enabled `sync_password_once` run. -/
theorem sync_password_once_eq (pfx : String) (src : List PwSourceRow)
    (state : Option Int) (users : List UserRow) (now : Int) :
    sync_password_once true pfx src state users now =
      { state :=
          if (sourceQueryPassword src pfx (state.getD epoch)).length ≠ 0 then
            some (((sourceQueryPassword src pfx (state.getD epoch)).foldl
              (fun mx r => foldMax mx r.update_dtime) none).getD now)
          else state
        users := (sourceQueryPassword src pfx (state.getD epoch)).foldl
          applyPwRow users
        affected := (sourceQueryPassword src pfx (state.getD epoch)).length } :=
  rfl

/-- Unfolding of an enabled `sync_profile_once` run. -/
theorem sync_profile_once_eq (forceFull ffDone : Bool) (pfx : String)
    (src : List ProfileSourceRow) (state : Option Int) (users : List UserRow)
    (now : Int) :
    sync_profile_once true forceFull ffDone pfx src state users now =
      { state :=
          if (sourceQueryProfile src pfx
                (if forceFull && !ffDone then epoch else state.getD epoch)).length ≠ 0 then
            some (((sourceQueryProfile src pfx
                (if forceFull && !ffDone then epoch else state.getD epoch)).foldl
              (fun mx r => foldMax mx (some (profileUpdatedAt r))) none).getD now)
          else state
        users := (sourceQueryProfile src pfx
            (if forceFull && !ffDone then epoch else state.getD epoch)).foldl
          upsertProfileRow users
        affected := (sourceQueryProfile src pfx
            (if forceFull && !ffDone then epoch else state.getD epoch)).length
        forceFullDone := ffDone || forceFull } :=
  rfl

end UserSync

namespace UserSync

/-- C2 as frozen is false: a force-full profile run reads from the epoch,
so with a stored watermark of 100 and a sole source row whose greatest
`update_dtime` is 50, the run rewrites `last_synced_at` from 100 down to
50 — the watermark regresses. -/
theorem C2_counterexample :
    (sync_profile_once true true false "" [Fixtures.profRow]
        (some 100) [] 777).state = some 50 ∧
    ¬ ((100 : Int) ≤ 50) := by
  refine ⟨?_, by decide⟩
  rw [sync_profile_once_eq]
  decide

/-- C2 (amended): for every password run and every profile run not using
the one-shot force-full override, the watermark only moves forward; for
any run (forced included) that fetched at least one row, the new watermark
is exactly the maximum source `updated_at` among the fetched rows — it is
never set to the wall-clock `now` — and a run that fetched zero rows
leaves the stored watermark untouched.  (A force-full profile run may move
the watermark backwards, to the fetched maximum.) -/
theorem C2_watermark :
    (∀ (enabled : Bool) (pfx : String) (src : List PwSourceRow)
        (state : Option Int) (users : List UserRow) (now : Int),
      state.getD epoch ≤
        (sync_password_once enabled pfx src state users now).state.getD epoch ∧
      ((sync_password_once enabled pfx src state users now).affected ≠ 0 →
        ∃ m, (sync_password_once enabled pfx src state users now).state = some m ∧
          (∃ r ∈ sourceQueryPassword src pfx (state.getD epoch),
            r.update_dtime = some m) ∧
          ∀ r ∈ sourceQueryPassword src pfx (state.getD epoch), ∀ v,
            r.update_dtime = some v → v ≤ m) ∧
      ((sync_password_once enabled pfx src state users now).affected = 0 →
        (sync_password_once enabled pfx src state users now).state = state)) ∧
    (∀ (enabled forceFull ffDone : Bool) (pfx : String)
        (src : List ProfileSourceRow) (state : Option Int)
        (users : List UserRow) (now : Int),
      ((forceFull && !ffDone) = false →
        state.getD epoch ≤
          (sync_profile_once enabled forceFull ffDone pfx src state users now).state.getD epoch) ∧
      ((sync_profile_once enabled forceFull ffDone pfx src state users now).affected ≠ 0 →
        ∃ m, (sync_profile_once enabled forceFull ffDone pfx src state users now).state
            = some m ∧
          (∃ r ∈ sourceQueryProfile src pfx
              (if forceFull && !ffDone then epoch else state.getD epoch),
            profileUpdatedAt r = m) ∧
          ∀ r ∈ sourceQueryProfile src pfx
              (if forceFull && !ffDone then epoch else state.getD epoch),
            profileUpdatedAt r ≤ m) ∧
      ((sync_profile_once enabled forceFull ffDone pfx src state users now).affected = 0 →
        (sync_profile_once enabled forceFull ffDone pfx src state users now).state
          = state)) := by
  constructor
  · intro enabled pfx src state users now
    cases enabled with
    | false =>
      refine ⟨le_refl _, ?_, fun _ => rfl⟩
      intro haff
      exact absurd rfl haff
    | true =>
      have hw := watermarkSpec PwSourceRow.update_dtime
        (sourceQueryPassword src pfx (state.getD epoch)) state now
        (state.getD epoch)
        (fun r hr => (mem_sourceQueryPassword hr).2)
      rw [sync_password_once_eq]
      refine ⟨?_, ?_, ?_⟩
      · by_cases hlen : (sourceQueryPassword src pfx (state.getD epoch)).length = 0
        · show state.getD epoch ≤ _
          rw [show (if (sourceQueryPassword src pfx (state.getD epoch)).length ≠ 0 then
                some (((sourceQueryPassword src pfx (state.getD epoch)).foldl
                  (fun mx r => foldMax mx r.update_dtime) none).getD now)
              else state) = state from hw.2 hlen]
        · rcases hw.1 hlen with ⟨m, heq, hlt, _, _⟩
          show state.getD epoch ≤ _
          rw [heq]
          exact le_of_lt hlt
      · intro haff
        rcases hw.1 haff with ⟨m, heq, _, hmem, hub⟩
        exact ⟨m, heq, hmem, hub⟩
      · intro haff
        exact hw.2 haff
  · intro enabled forceFull ffDone pfx src state users now
    cases enabled with
    | false =>
      refine ⟨fun _ => le_refl _, ?_, fun _ => rfl⟩
      intro haff
      exact absurd rfl haff
    | true =>
      have hw := watermarkSpec (fun r => some (profileUpdatedAt r))
        (sourceQueryProfile src pfx
          (if forceFull && !ffDone then epoch else state.getD epoch)) state now
        (if forceFull && !ffDone then epoch else state.getD epoch)
        (fun r hr => ⟨profileUpdatedAt r, rfl, (mem_sourceQueryProfile hr).2⟩)
      rw [sync_profile_once_eq]
      refine ⟨?_, ?_, ?_⟩
      · intro hf
        by_cases hlen : (sourceQueryProfile src pfx
            (if forceFull && !ffDone then epoch else state.getD epoch)).length = 0
        · show state.getD epoch ≤ _
          rw [hw.2 hlen]
        · rcases hw.1 hlen with ⟨m, heq, hlt, _, _⟩
          show state.getD epoch ≤ _
          rw [heq]
          rw [hf] at hlt
          simp only [Bool.false_eq_true, if_false] at hlt
          exact le_of_lt hlt
      · intro haff
        rcases hw.1 haff with ⟨m, heq, _, hmem, hub⟩
        refine ⟨m, heq, ?_, ?_⟩
        · rcases hmem with ⟨r, hr, hrm⟩
          injection hrm with hh
          exact ⟨r, hr, hh⟩
        · intro r hr
          exact hub r hr (profileUpdatedAt r) rfl
      · intro haff
        exact hw.2 haff

/-- Witness for C2 (amended): a password run over one fresh row advances
the watermark to that row's `update_dtime`, and an empty profile run
leaves it untouched. -/
theorem C2_watermark_witness :
    (some 10 : Option Int).getD epoch ≤
      (sync_password_once true "" [Fixtures.pwRow] (some 10)
        [Fixtures.localUser] 777).state.getD epoch ∧
    (sync_profile_once true false false "" [] (some 10)
      [Fixtures.localUser] 777).state = some 10 :=
  ⟨(C2_watermark.1 true "" [Fixtures.pwRow] (some 10) [Fixtures.localUser] 777).1,
   (C2_watermark.2 true false false "" [] (some 10) [Fixtures.localUser] 777).2.2 rfl⟩

end UserSync

namespace UserSync

/-- The conflict-update wrapper of the profile upsert never changes an
employee number. -/
theorem updateWrap_emp (r : ProfileSourceRow) (u : UserRow) :
    ((if u.emp_no == r.emp_no then profileUpdateUser u r else u)).emp_no
      = u.emp_no := by
  by_cases h : u.emp_no == r.emp_no <;> simp [h, profileUpdateUser]

/-- Looking a user up after the conflict-update map commutes with the
lookup before it. -/
theorem findUser_map_update (users : List UserRow) (r : ProfileSourceRow)
    (e : String) :
    findUser (users.map (fun u =>
        if u.emp_no == r.emp_no then profileUpdateUser u r else u)) e
      = Option.map (fun u =>
          if u.emp_no == r.emp_no then profileUpdateUser u r else u)
          (findUser users e) := by
  induction users with
  | nil => rfl
  | cons u us ih =>
    unfold findUser at ih ⊢
    rw [List.map_cons]
    by_cases hu : (u.emp_no == e) = true
    · rw [List.find?_cons_of_pos (p := fun x : UserRow => x.emp_no == e) _
            (by simp only [updateWrap_emp]; exact hu),
          List.find?_cons_of_pos (p := fun x : UserRow => x.emp_no == e) _ hu]
      rfl
    · rw [List.find?_cons_of_neg (p := fun x : UserRow => x.emp_no == e) _
            (by simp only [updateWrap_emp]; exact hu),
          List.find?_cons_of_neg (p := fun x : UserRow => x.emp_no == e) _ hu]
      exact ih

/-- Upserting one source row does not affect lookups of other employee
numbers. -/
theorem findUser_upsert_other {users : List UserRow} {r : ProfileSourceRow}
    {e : String} (h : e ≠ r.emp_no) :
    findUser (upsertProfileRow users r) e = findUser users e := by
  unfold upsertProfileRow
  by_cases hx : users.any (fun u => u.emp_no == r.emp_no)
  · rw [if_pos hx, findUser_map_update]
    cases hf : findUser users e with
    | none => rfl
    | some u =>
      have hf' : List.find? (fun x : UserRow => x.emp_no == e) users = some u := hf
      have hpe : (u.emp_no == e) = true :=
        List.find?_some (p := fun x : UserRow => x.emp_no == e) hf'
      have hne : (u.emp_no == r.emp_no) = false := by
        rw [beq_iff_eq] at hpe
        rw [beq_eq_false_iff_ne, hpe]
        exact h
      rw [Option.map_some']
      rw [if_neg (by simpa using hne)]
  · rw [if_neg hx]
    unfold findUser
    rw [List.find?_append]
    have hone : List.find? (fun u => u.emp_no == e) [newProfileUser r] = none := by
      rw [List.find?_eq_none]
      intro x hx'
      rw [List.mem_singleton.mp hx']
      simp only [newProfileUser, beq_iff_eq]
      exact fun he => h he.symm
    rw [hone]
    cases List.find? (fun u => u.emp_no == e) users <;> rfl

/-- Upserting a source row makes its employee number resolve to the
updated existing user, or to the freshly inserted default user. -/
theorem findUser_upsert_self (users : List UserRow) (r : ProfileSourceRow) :
    findUser (upsertProfileRow users r) r.emp_no =
      some (match findUser users r.emp_no with
            | some u => profileUpdateUser u r
            | none => newProfileUser r) := by
  unfold upsertProfileRow
  by_cases hx : users.any (fun u => u.emp_no == r.emp_no)
  · rw [if_pos hx, findUser_map_update]
    have hsome : (findUser users r.emp_no).isSome = true := by
      unfold findUser
      rw [List.find?_isSome]
      exact List.any_eq_true.mp hx
    rcases Option.isSome_iff_exists.mp hsome with ⟨u, hu⟩
    rw [hu]
    have hu' : List.find? (fun x : UserRow => x.emp_no == r.emp_no) users = some u := hu
    have hpe : (u.emp_no == r.emp_no) = true :=
      List.find?_some (p := fun x : UserRow => x.emp_no == r.emp_no) hu'
    rw [Option.map_some']
    rw [if_pos hpe]
  · rw [if_neg hx]
    have hnone : findUser users r.emp_no = none := by
      unfold findUser
      rw [List.find?_eq_none]
      intro x hx' hpx
      exact hx (List.any_eq_true.mpr ⟨x, hx', hpx⟩)
    rw [hnone]
    unfold findUser
    rw [List.find?_append]
    have husers : List.find? (fun u => u.emp_no == r.emp_no) users = none := hnone
    rw [husers]
    simp [newProfileUser]

/-- A fold of upserts leaves employee numbers it never touches alone. -/
theorem findUser_foldl_upsert_not_mem {rows : List ProfileSourceRow}
    {e : String} (h : ∀ r ∈ rows, r.emp_no ≠ e) :
    ∀ users : List UserRow,
      findUser (rows.foldl upsertProfileRow users) e = findUser users e := by
  induction rows with
  | nil => intro users; rfl
  | cons r rs ih =>
    intro users
    rw [List.foldl_cons,
        ih (fun x hx => h x (List.mem_cons_of_mem _ hx)) _]
    exact findUser_upsert_other
      (fun he => h r (List.mem_cons_self _ _) he.symm)

/-- One profile-sync batch: when the fetched rows carry pairwise-distinct
employee numbers, each row's employee number resolves to exactly the
upsert result for that row. -/
theorem findUser_foldl_upsert {rows : List ProfileSourceRow}
    {r : ProfileSourceRow}
    (hnd : (rows.map ProfileSourceRow.emp_no).Nodup) (hr : r ∈ rows) :
    ∀ users : List UserRow,
      findUser (rows.foldl upsertProfileRow users) r.emp_no =
        some (match findUser users r.emp_no with
              | some u => profileUpdateUser u r
              | none => newProfileUser r) := by
  induction rows with
  | nil => cases hr
  | cons hd tl ih =>
    intro users
    rw [List.map_cons, List.nodup_cons] at hnd
    rcases List.mem_cons.mp hr with rfl | hr'
    · rw [List.foldl_cons]
      have htl : ∀ x ∈ tl, x.emp_no ≠ r.emp_no := by
        intro x hx he
        exact hnd.1 (List.mem_map.mpr ⟨x, hx, he⟩)
      rw [findUser_foldl_upsert_not_mem htl _]
      exact findUser_upsert_self users r
    · rw [List.foldl_cons]
      have hne : hd.emp_no ≠ r.emp_no := by
        intro he
        exact hnd.1 (he ▸ List.mem_map.mpr ⟨r, hr', rfl⟩)
      rw [ih hnd.2 hr' _, findUser_upsert_other (fun he => hne he.symm)]

end UserSync

namespace UserSync

/-- C8: in a profile-sync run over fetched rows with pairwise-distinct
employee numbers, a row whose employee number has no local user inserts a
user carrying the source name/title/department/email with role
"requester" and verified=true, while a row whose employee number exists
updates exactly the profile fields — password, role, verified flag and
employee number are untouched. -/
theorem C8_profile_upsert :
    ∀ (forceFull ffDone : Bool) (pfx : String) (src : List ProfileSourceRow)
      (state : Option Int) (users : List UserRow) (now : Int)
      (r : ProfileSourceRow),
      ((sourceQueryProfile src pfx
          (if forceFull && !ffDone then epoch else state.getD epoch)).map
            ProfileSourceRow.emp_no).Nodup →
      r ∈ sourceQueryProfile src pfx
          (if forceFull && !ffDone then epoch else state.getD epoch) →
      (findUser users r.emp_no = none →
        findUser
          (sync_profile_once true forceFull ffDone pfx src state users now).users
          r.emp_no = some (newProfileUser r)) ∧
      (∀ u, findUser users r.emp_no = some u →
        findUser
          (sync_profile_once true forceFull ffDone pfx src state users now).users
          r.emp_no = some (profileUpdateUser u r)) ∧
      ((newProfileUser r).role = "requester" ∧
       (newProfileUser r).is_verified = true ∧
       (newProfileUser r).emp_no = r.emp_no ∧
       (newProfileUser r).kor_name = r.kor_name ∧
       (newProfileUser r).eng_name = r.eng_name ∧
       (newProfileUser r).title = r.title ∧
       (newProfileUser r).department = r.department ∧
       (newProfileUser r).email = r.email) ∧
      (∀ u : UserRow,
       (profileUpdateUser u r).role = u.role ∧
       (profileUpdateUser u r).password = u.password ∧
       (profileUpdateUser u r).is_verified = u.is_verified ∧
       (profileUpdateUser u r).emp_no = u.emp_no ∧
       (profileUpdateUser u r).kor_name = r.kor_name ∧
       (profileUpdateUser u r).eng_name = r.eng_name ∧
       (profileUpdateUser u r).title = r.title ∧
       (profileUpdateUser u r).department = r.department ∧
       (profileUpdateUser u r).email = r.email) := by
  intro forceFull ffDone pfx src state users now r hnd hr
  have husers :
      (sync_profile_once true forceFull ffDone pfx src state users now).users
        = (sourceQueryProfile src pfx
            (if forceFull && !ffDone then epoch else state.getD epoch)).foldl
              upsertProfileRow users := by
    rw [sync_profile_once_eq]
  refine ⟨?_, ?_,
    ⟨rfl, rfl, rfl, rfl, rfl, rfl, rfl, rfl⟩,
    fun u => ⟨rfl, rfl, rfl, rfl, rfl, rfl, rfl, rfl, rfl⟩⟩
  · intro hnone
    rw [husers, findUser_foldl_upsert hnd hr users, hnone]
  · intro u hsome
    rw [husers, findUser_foldl_upsert hnd hr users, hsome]

/-- Witness for C8 at a concrete source row, against an empty local table
(insert) and against a table already holding the employee (update). -/
theorem C8_profile_upsert_witness :
    findUser (sync_profile_once true false false "" [Fixtures.profRow]
        none [] 0).users Fixtures.profRow.emp_no
      = some (newProfileUser Fixtures.profRow) ∧
    findUser (sync_profile_once true false false "" [Fixtures.profRow]
        none [Fixtures.localUser] 0).users Fixtures.profRow.emp_no
      = some (profileUpdateUser Fixtures.localUser Fixtures.profRow) :=
  ⟨(C8_profile_upsert false false "" [Fixtures.profRow] none [] 0
      Fixtures.profRow (by decide) (by decide)).1 rfl,
   (C8_profile_upsert false false "" [Fixtures.profRow] none
      [Fixtures.localUser] 0 Fixtures.profRow (by decide) (by decide)).2.1
      Fixtures.localUser rfl⟩

/-- One password-sync `UPDATE` leaves every column except `password`
(and the row count and order) unchanged. -/
theorem applyPwRow_nonPw (users : List UserRow) (r : PwSourceRow) :
    (applyPwRow users r).map nonPwFields = users.map nonPwFields := by
  unfold applyPwRow
  rw [List.map_map]
  apply List.map_congr_left
  intro u _
  by_cases h : (u.emp_no == r.emp_no) = true <;>
    simp [h, nonPwFields, Function.comp]

/-- A whole password-sync batch preserves all non-password columns. -/
theorem foldl_applyPwRow_nonPw (rows : List PwSourceRow) :
    ∀ users : List UserRow,
      (rows.foldl applyPwRow users).map nonPwFields
        = users.map nonPwFields := by
  induction rows with
  | nil => intro users; rfl
  | cons r rs ih =>
    intro users
    rw [List.foldl_cons, ih, applyPwRow_nonPw]

/-- C9: a password-sync run never creates (or deletes or reorders) local
user rows and touches nothing but the `password` column; a source row
whose employee number is absent locally leaves the table exactly as it
was. -/
theorem C9_password_never_inserts :
    (∀ (enabled : Bool) (pfx : String) (src : List PwSourceRow)
        (state : Option Int) (users : List UserRow) (now : Int),
      (sync_password_once enabled pfx src state users now).users.map nonPwFields
        = users.map nonPwFields) ∧
    (∀ (users : List UserRow) (r : PwSourceRow),
      (∀ u ∈ users, u.emp_no ≠ r.emp_no) → applyPwRow users r = users) := by
  constructor
  · intro enabled pfx src state users now
    cases enabled with
    | false => rfl
    | true =>
      rw [sync_password_once_eq]
      exact foldl_applyPwRow_nonPw _ users
  · intro users r h
    unfold applyPwRow
    calc users.map (fun u =>
            if u.emp_no == r.emp_no then { u with password := r.password } else u)
        = users.map id := by
          apply List.map_congr_left
          intro u hu
          have hne : (u.emp_no == r.emp_no) = false := by
            simpa using h u hu
          simp [hne]
      _ = users := List.map_id users

/-- Witness for C9: one matching row rewrites no non-password column, and
a row for an unknown employee number is a no-op. -/
theorem C9_password_never_inserts_witness :
    (sync_password_once true "" [Fixtures.pwRow] (some 10)
        [Fixtures.localUser] 777).users.map nonPwFields
      = [Fixtures.localUser].map nonPwFields ∧
    applyPwRow [Fixtures.localUser] { Fixtures.pwRow with emp_no := "E999" }
      = [Fixtures.localUser] :=
  ⟨C9_password_never_inserts.1 true "" [Fixtures.pwRow] (some 10)
      [Fixtures.localUser] 777,
   C9_password_never_inserts.2 [Fixtures.localUser]
      { Fixtures.pwRow with emp_no := "E999" } (by decide)⟩

end UserSync
